import Mathlib

/-!
Verification development for the workflow compiler and resilient remote-engine
client of the repository (backend/app/services/n8n_client.py and
backend/app/services/workflow_builder.py), as a shallow embedding in Lean.

Conventions of the embedding:
* Python exceptions become an explicit error type; fallible code returns
  `Except PyError _`.
* The single exception class of the client module, `N8nClientError`, is one
  constructor; `ValueError` raised by the builder is another.
* Network and database effects are passed in as explicit outcome oracles, and
  the network activity of a call is reported as an explicit trace (attempt
  count, sleep durations, action list), so that claims about "no network I/O"
  or "delete was attempted" are statements about the trace.
* Machine time is an `Int` number of seconds (Python datetime subtraction).
-/

/-- The Python exception classes raised by the modelled code.  The n8n client
module defines exactly one exception class, `N8nClientError`; the builder
raises `ValueError` from validation; attribute access on `None` raises
`AttributeError`. -/
inductive PyError where
  | n8nClientError (msg : String)
  | valueError (msg : String)
  | attributeError (msg : String)
deriving DecidableEq

/-- Message of the exception, as Python `str(e)` would render it. -/
def PyError.msg : PyError → String
  | .n8nClientError m => m
  | .valueError m => m
  | .attributeError m => m

/-- Name of the Python exception class of an error value. -/
def PyError.className : PyError → String
  | .n8nClientError _ => "N8nClientError"
  | .valueError _ => "ValueError"
  | .attributeError _ => "AttributeError"

/-- Two errors are of the same Python exception type. -/
def PyError.sameClass (a b : PyError) : Bool := a.className == b.className

/-! ### Circuit breaker state (N8nClient.__init__, lines 33-37) -/

/-- Mutable circuit-breaker state of an `N8nClient` instance:
`failure_count`, `circuit_open` and `last_failure_time`. -/
structure ClientState where
  failure_count : Nat
  circuit_open : Bool
  last_failure_time : Option Int
deriving DecidableEq

/-- Fresh client: `failure_count = 0`, `circuit_open = False`,
`last_failure_time = None`. -/
def initState : ClientState := ⟨0, false, none⟩

/-- `self.circuit_timeout = 60  # seconds` -/
def circuitTimeout : Int := 60

/-- Message of the breaker-open failure raised by `_check_circuit_breaker`. -/
def breakerOpenMsg : String := "Circuit breaker open - n8n service unavailable"

/-- `N8nClient._check_circuit_breaker`: pass through when the breaker is
closed; when open, close it again if more than `circuit_timeout` seconds have
elapsed since the last failure, otherwise raise `N8nClientError`.  The
returned state reflects the reset performed on the timeout path. -/
def checkCircuitBreaker (s : ClientState) (now : Int) : Except PyError ClientState :=
  if !s.circuit_open then
    .ok s
  else
    match s.last_failure_time with
    | some t =>
      if now - t > circuitTimeout then
        .ok { s with circuit_open := false, failure_count := 0 }
      else
        .error (.n8nClientError breakerOpenMsg)
    | none => .error (.n8nClientError breakerOpenMsg)

/-- `N8nClient._record_success`: reset the failure counter and close the
breaker if it was open. -/
def recordSuccess (s : ClientState) : ClientState :=
  { s with failure_count := 0, circuit_open := false }

/-- `N8nClient._record_failure`: bump the failure counter, stamp the failure
time, and open the breaker once the counter reaches 5. -/
def recordFailure (s : ClientState) (now : Int) : ClientState :=
  { failure_count := s.failure_count + 1
    last_failure_time := some now
    circuit_open := if s.failure_count + 1 ≥ 5 then true else s.circuit_open }

/-- A sequence of recorded failures, oldest first. -/
def applyFailures (s : ClientState) (times : List Int) : ClientState :=
  times.foldl recordFailure s

/-! ### The request loop (N8nClient._make_request, lines 88-140) -/

/-- Outcome of one network attempt: an HTTP response with status code and body
text, or a network-level failure (`aiohttp.ClientError`). -/
inductive NetOutcome where
  | status (code : Nat) (body : String)
  | netError (msg : String)

/-- An outcome the request loop retries: HTTP status `>= 500` or a
network-level failure. -/
def NetOutcome.retryable : NetOutcome → Bool
  | .status code _ => 500 ≤ code
  | .netError _ => true

/-- Message of the error surfaced when retries are exhausted on a retryable
outcome. -/
def NetOutcome.lastErrMsg : NetOutcome → String
  | .status _ body => "n8n server error: " ++ body
  | .netError m => "Network error: " ++ m

/-- Result of one `_make_request` invocation: the returned value or raised
error, the client state afterwards, the list of back-off sleeps performed (in
order), and the number of network attempts actually issued. -/
structure ReqResult where
  result : Except PyError (Option String)
  state : ClientState
  sleeps : List Nat
  attempts : Nat

/-- The `for attempt in range(retry_count)` loop of `_make_request`, with the
per-attempt network outcome supplied by `out`.  `fuel` is the number of loop
iterations remaining (`retry_count - attempt`); when the loop body decides to
retry it sleeps `2 ** attempt` and continues.  Exhausting the loop without a
terminal outcome (only possible with `retry_count = 0`) falls off the end of
the Python function, returning `None`. -/
def requestLoop (endpoint : String) (out : Nat → NetOutcome) (s : ClientState)
    (now : Int) : Nat → Nat → ReqResult
  | _, 0 => ⟨.ok none, s, [], 0⟩
  | attempt, fuel + 1 =>
    match out attempt with
    | .netError m =>
      if fuel > 0 then
        let r := requestLoop endpoint out s now (attempt + 1) fuel
        ⟨r.result, r.state, 2 ^ attempt :: r.sleeps, r.attempts + 1⟩
      else
        ⟨.error (.n8nClientError ("Network error: " ++ m)), recordFailure s now, [], 1⟩
    | .status code body =>
      if code = 200 then
        ⟨.ok (some body), recordSuccess s, [], 1⟩
      else if code = 401 then
        ⟨.error (.n8nClientError "n8n API authentication failed"), s, [], 1⟩
      else if code = 404 then
        ⟨.error (.n8nClientError ("n8n endpoint not found: " ++ endpoint)), s, [], 1⟩
      else if 500 ≤ code then
        if fuel > 0 then
          let r := requestLoop endpoint out s now (attempt + 1) fuel
          ⟨r.result, r.state, 2 ^ attempt :: r.sleeps, r.attempts + 1⟩
        else
          ⟨.error (.n8nClientError ("n8n server error: " ++ body)), recordFailure s now, [], 1⟩
      else
        ⟨.error (.n8nClientError ("n8n API error " ++ toString code ++ ": " ++ body)), s, [], 1⟩

/-- `N8nClient._make_request`: gate on the circuit breaker, then run the retry
loop starting at attempt 0.  A breaker-open failure is raised before any
network attempt, so the trace shows zero attempts and no sleeps. -/
def makeRequest (endpoint : String) (out : Nat → NetOutcome) (retryCount : Nat)
    (s : ClientState) (now : Int) : ReqResult :=
  match checkCircuitBreaker s now with
  | .error e => ⟨.error e, s, [], 0⟩
  | .ok s1 => requestLoop endpoint out s1 now 0 retryCount

/-! ### Untyped JSON-like documents (the engine-definition documents) -/

/-- A Python JSON-like value: string, number, boolean, None, list or dict.
Numbers are modelled as integers; no claim depends on fractional values.
Dicts are insertion-ordered association lists, as in Python. -/
inductive Val where
  | str (s : String)
  | num (n : Int)
  | bool (b : Bool)
  | null
  | arr (xs : List Val)
  | obj (fields : List (String × Val))

/-- Document fields keyed by strings: a Python dict. -/
abbrev InputMap := List (String × Val)

/-- Python dict lookup: the value at the first (unique) occurrence of a key. -/
def lookupMap : InputMap → String → Option Val
  | [], _ => none
  | (k1, v) :: rest, k => if k1 = k then some v else lookupMap rest k

/-- Python dict assignment `d[k] = v`: update an existing key in place, else
append a new entry. -/
def insertMap : InputMap → String → Val → InputMap
  | [], k, v => [(k, v)]
  | (k1, v1) :: rest, k, v =>
    if k1 = k then (k, v) :: rest else (k1, v1) :: insertMap rest k v

/-- Python `{**a, **b}`: entries of `b` override entries of `a`, keeping the
position of a key that was already present. -/
def mergeMap (a b : InputMap) : InputMap :=
  b.foldl (fun m kv => insertMap m kv.1 kv.2) a

mutual
/-- Structural equality of values, as Python `==` compares them. -/
def valBEq : Val → Val → Bool
  | .str a, .str b => a == b
  | .num a, .num b => a == b
  | .bool a, .bool b => a == b
  | .null, .null => true
  | .arr a, .arr b => valListBEq a b
  | .obj a, .obj b => valFieldsBEq a b
  | _, _ => false

def valListBEq : List Val → List Val → Bool
  | [], [] => true
  | a :: as₁, b :: bs => valBEq a b && valListBEq as₁ bs
  | _, _ => false

def valFieldsBEq : List (String × Val) → List (String × Val) → Bool
  | [], [] => true
  | (k1, a) :: as₁, (k2, b) :: bs => k1 == k2 && valBEq a b && valFieldsBEq as₁ bs
  | _, _ => false
end

/-- Python `str(value)`, as used when a bound value is substituted inside a
longer string.  Container stringification is abbreviated: no binding in the
claims is a container, and the exact repr formatting is not load-bearing. -/
def pyStr : Val → String
  | .str s => s
  | .num n => toString n
  | .bool b => if b then "True" else "False"
  | .null => "None"
  | .arr _ => "<list>"
  | .obj _ => "<dict>"

/-- Python `v is None`. -/
def Val.isNull : Val → Bool
  | .null => true
  | _ => false

/-- Python `float(v)`, the coercion attempted by the validator for `number`
fields.  Succeeds on numbers and booleans, parses integer-numeral strings
(fractional syntax is not modelled; no claim depends on it), and fails with
`ValueError`/`TypeError` (here: `none`) on everything else. -/
def pyFloat : Val → Option Val
  | .num n => some (.num n)
  | .bool b => some (.num (if b then 1 else 0))
  | .str s => (s.toInt?).map (fun n => Val.num n)
  | _ => none

/-! ### Character-list string primitives

Python `pattern in s` and `s.replace(pattern, repl)` are modelled on
`List Char` so that the substitution proofs can proceed by induction. -/

/-- The two brace characters of a placeholder token. -/
def lbrace : Char := '\x7b'

/-- Closing brace of a placeholder token. -/
def rbrace : Char := '\x7d'

/-- The characters of the pattern built by the substitution loop for a key. -/
def patternL (key : List Char) : List Char :=
  lbrace :: lbrace :: (key ++ [rbrace, rbrace])

/-- A string with no brace characters (so it can contain no token and no
token boundary). -/
def braceFree (s : List Char) : Bool :=
  s.all fun c => !(c = lbrace) && !(c = rbrace)

/-- The first list is a prefix of the second. -/
def startsWithL : List Char → List Char → Bool
  | [], _ => true
  | _ :: _, [] => false
  | p :: ps, c :: cs => if p = c then startsWithL ps cs else false

/-- Python substring test `pat in s`. -/
def hasSubL (pat : List Char) : List Char → Bool
  | [] => startsWithL pat []
  | c :: cs => startsWithL pat (c :: cs) || hasSubL pat cs

/-- Python `s.replace(pat, rep)`: replace every occurrence, scanning left to
right without overlap, continuing after the inserted replacement.  Python
treats an empty pattern specially (inserting `rep` at every boundary); the
patterns used here are never empty and the empty case is modelled as the
identity. -/
def replaceL (pat rep : List Char) : List Char → List Char
  | [] => []
  | c :: cs =>
    if pat = [] then c :: cs
    else if startsWithL pat (c :: cs) then
      rep ++ replaceL pat rep (List.drop (pat.length - 1) cs)
    else
      c :: replaceL pat rep cs
  termination_by s => s.length
  decreasing_by
    · simp [List.length_drop]; omega
    · simp

/-! ### Substitution engine (WorkflowBuilder._replace_placeholders) -/

/-- The `for key, value in replacements.items()` loop of
`_replace_placeholders` over one string value `res`.  When the whole string
equals one pattern the bound value is returned with its type preserved and the
loop exits; otherwise the stringified value is substring-replaced and the loop
continues with the updated string. -/
def resolveLoop : InputMap → List Char → Val
  | [], res => .str (String.mk res)
  | (key, value) :: rest, res =>
    let pat := patternL key.data
    if hasSubL pat res then
      if res = pat then value
      else resolveLoop rest (replaceL pat (pyStr value).data res)
    else resolveLoop rest res

mutual
/-- `WorkflowBuilder._replace_placeholders`: strings go through the
replacement loop, dicts and lists are rebuilt with each element resolved, and
all other scalars pass through unchanged. -/
def replacePlaceholders (repl : InputMap) : Val → Val
  | .str s => resolveLoop repl s.data
  | .obj fs => .obj (replaceFields repl fs)
  | .arr xs => .arr (replaceList repl xs)
  | .num n => .num n
  | .bool b => .bool b
  | .null => .null

def replaceFields (repl : InputMap) : List (String × Val) → List (String × Val)
  | [] => []
  | (k, v) :: rest => (k, replacePlaceholders repl v) :: replaceFields repl rest

def replaceList (repl : InputMap) : List Val → List Val
  | [] => []
  | v :: rest => replacePlaceholders repl v :: replaceList repl rest
end

/-! ### Input validation (WorkflowBuilder._validate_inputs, lines 112-147) -/

/-- One field specification of a template (`required_inputs` /
`optional_inputs` entry): a dict with `name`, `type` and the optional keys
`default`, `min`, `max`, `options`. -/
structure FieldSpec where
  name : String
  type : String
  default : Option Val := none
  min : Option Int := none
  max : Option Int := none
  options : Option (List Val) := none

/-- An option entry of a `select` field: a bare string stands for itself,
otherwise the entry is a dict and its `value` key is the admissible value.
A malformed entry (non-dict, or dict without `value`) would raise in Python;
it is modelled as an inadmissible sentinel, which is equally un-matchable. -/
def optionValue : Val → Val
  | .str s => .str s
  | .obj fs => (lookupMap fs "value").getD .null
  | v => v

/-- Coerced numeric value strictly below the declared minimum.  The validator
only evaluates this after a successful `float` coercion, so the value is
always numeric here; other shapes return `false`. -/
def valLtInt (v : Val) (lo : Int) : Bool :=
  match v with
  | .num n => n < lo
  | _ => false

/-- Coerced numeric value strictly above the declared maximum. -/
def valGtInt (v : Val) (hi : Int) : Bool :=
  match v with
  | .num n => hi < n
  | _ => false

/-- Coercion block of the required-input loop: for a `number` field, attempt
`float` coercion and write the coerced value back into the map
(`inputs[field_name] = float(...)`); other types pass through. -/
def coerceNumber (m : InputMap) (f : FieldSpec) (v0 : Val) :
    Except PyError (InputMap × Val) :=
  if f.type = "number" then
    match pyFloat v0 with
    | some v1 => .ok (insertMap m f.name v1, v1)
    | none => .error (.valueError ("Input " ++ f.name ++ " must be a number"))
  else .ok (m, v0)

/-- Range block of the required-input loop: for a `number` field, check the
declared `min` and `max` bounds (when present) against the coerced value. -/
def rangeCheckNumber (f : FieldSpec) (v1 : Val) : Except PyError Unit :=
  if f.type = "number" then
    match f.min with
    | some lo =>
      if valLtInt v1 lo then
        .error (.valueError ("Input " ++ f.name ++ " must be >= " ++ toString lo))
      else
        match f.max with
        | some hi =>
          if valGtInt v1 hi then
            .error (.valueError ("Input " ++ f.name ++ " must be <= " ++ toString hi))
          else .ok ()
        | none => .ok ()
    | none =>
      match f.max with
      | some hi =>
        if valGtInt v1 hi then
          .error (.valueError ("Input " ++ f.name ++ " must be <= " ++ toString hi))
        else .ok ()
      | none => .ok ()
  else .ok ()

/-- Options block of the required-input loop: when `options` is declared, the
(possibly coerced) value must equal one of the admissible option values. -/
def optionsCheck (f : FieldSpec) (v1 : Val) (m1 : InputMap) :
    Except PyError InputMap :=
  match f.options with
  | some opts =>
    if (opts.map optionValue).any (fun o => valBEq v1 o) then .ok m1
    else .error (.valueError ("Input " ++ f.name ++ " must be one of the declared options"))
  | none => .ok m1

/-- Body of the required-input loop of `_validate_inputs` for one field:
presence check, `float` coercion for `number` fields, range check for
`number` fields, then enum-membership check when `options` is declared.
Error messages carry the field name; the Python quoting and list formatting
of the messages is abbreviated. -/
def checkRequiredField (m : InputMap) (f : FieldSpec) : Except PyError InputMap :=
  match lookupMap m f.name with
  | none => .error (.valueError ("Required input " ++ f.name ++ " is missing"))
  | some v0 =>
    if v0.isNull then
      .error (.valueError ("Required input " ++ f.name ++ " is missing"))
    else
      match coerceNumber m f v0 with
      | .error e => .error e
      | .ok (m1, v1) =>
        match rangeCheckNumber f v1 with
        | .error e => .error e
        | .ok _ => optionsCheck f v1 m1

/-- The `for req_input in template.required_inputs` loop. -/
def validateRequiredLoop : List FieldSpec → InputMap → Except PyError InputMap
  | [], m => .ok m
  | f :: fs, m =>
    match checkRequiredField m f with
    | .error e => .error e
    | .ok m1 => validateRequiredLoop fs m1

/-- One iteration of the optional-input loop: a field absent from the map, or
present with value `None`, receives its declared default
(`opt_input.get(\x27default\x27)`, i.e. `None` when no default is declared). -/
def defaultStep (f : FieldSpec) (m : InputMap) : InputMap :=
  match lookupMap m f.name with
  | none => insertMap m f.name (f.default.getD .null)
  | some v => if v.isNull then insertMap m f.name (f.default.getD .null) else m

/-- The `for opt_input in template.optional_inputs or []` loop. -/
def applyDefaults : List FieldSpec → InputMap → InputMap
  | [], m => m
  | f :: fs, m => applyDefaults fs (defaultStep f m)

/-- A workflow template record (`WorkflowTemplate` model), restricted to the
fields the builder reads.  The engine-definition document `n8n_json` is a
Python dict, modelled as its field list. -/
structure WorkflowTemplate where
  id : String
  name : String
  required_inputs : List FieldSpec
  optional_inputs : List FieldSpec
  n8n_json : List (String × Val)

/-- `WorkflowBuilder._validate_inputs`: run the required-input checks (which
mutate the map in place in Python, here returning the updated map), then fill
defaults for optional inputs.  On success the returned map is the one the
builder uses both for substitution and as the persisted configuration. -/
def validateInputs (template : WorkflowTemplate) (inputs : InputMap) :
    Except PyError InputMap :=
  match validateRequiredLoop template.required_inputs inputs with
  | .error e => .error e
  | .ok m => .ok (applyDefaults template.optional_inputs m)

/-! ### Credential injection and workflow JSON generation
(WorkflowBuilder._inject_credentials and _generate_workflow_json) -/

/-- `WorkflowBuilder._inject_credentials`: for each credential reference of a
node, derive the per-user identifier `{type}_user_{userId}` and write it into
the `id` key, leaving the other keys untouched.  A non-list credentials value
or non-dict entry would raise in Python; they pass through here (no claim
touches them). -/
def injectCredentials (creds : Val) (userId : String) : Val :=
  match creds with
  | .arr cs =>
    .arr (cs.map fun c =>
      match c with
      | .obj fs =>
        let credType := match lookupMap fs "type" with
          | some v => pyStr v
          | none => ""
        .obj (insertMap fs "id" (.str (credType ++ "_user_" ++ userId)))
      | c => c)
  | c => c

/-- The generated instance name: `custom_name or
f"{template.name}_{user_id[:8]}_{timestamp}"`.  An empty custom name is falsy
in Python and falls back to the generated one. -/
def workflowName (template : WorkflowTemplate) (userId ts : String) :
    Option String → String
  | some n => if n = "" then template.name ++ "_" ++ (userId.take 8) ++ "_" ++ ts else n
  | none => template.name ++ "_" ++ (userId.take 8) ++ "_" ++ ts

/-- The node type tag of a webhook trigger. -/
def webhookType : String := "n8n-nodes-base.webhook"

/-- Per-node processing of `_generate_workflow_json`: placeholder replacement
in `parameters`, credential injection in `credentials`, then the forced
rewrite of the webhook subscription path to `{user_id}/{workflow_name}` for a
node of the webhook type that has a `path` key inside a `parameters` dict.
A non-dict node, or a webhook node whose `parameters` is not a dict, would
raise in Python; such shapes pass through unchanged here. -/
def processNode (repl : InputMap) (userId wfName : String) (node : Val) : Val :=
  match node with
  | .obj fields0 =>
    let fields1 :=
      match lookupMap fields0 "parameters" with
      | some p => insertMap fields0 "parameters" (replacePlaceholders repl p)
      | none => fields0
    let fields2 :=
      match lookupMap fields1 "credentials" with
      | some c => insertMap fields1 "credentials" (injectCredentials c userId)
      | none => fields1
    let isWebhook : Bool :=
      match lookupMap fields2 "type" with
      | some (.str t) => t == webhookType
      | _ => false
    let fields3 :=
      if isWebhook then
        match lookupMap fields2 "parameters" with
        | some (.obj ps) =>
          if (lookupMap ps "path").isSome then
            insertMap fields2 "parameters"
              (.obj (insertMap ps "path" (.str (userId ++ "/" ++ wfName))))
          else fields2
        | _ => fields2
      else fields2
    .obj fields3
  | node => node

/-- `WorkflowBuilder._generate_workflow_json`: deep-copy the template
definition, stamp the generated name, build the replacement map
`{user_id, workflow_name, timestamp, **inputs}` (inputs override the base
keys), and process every node of the `nodes` list.  A missing `nodes` key
means no node processing (`.get('nodes', [])`); a non-list `nodes` value
would raise in Python and passes through here. -/
def generateWorkflowJson (template : WorkflowTemplate) (userId : String)
    (inputs : InputMap) (customName : Option String) (ts : String) :
    List (String × Val) :=
  let name := workflowName template userId ts customName
  let json := insertMap template.n8n_json "name" (.str name)
  let repl := mergeMap
    [("user_id", Val.str userId), ("workflow_name", Val.str name),
     ("timestamp", Val.str ts)] inputs
  match lookupMap json "nodes" with
  | some (.arr nodes) =>
    insertMap json "nodes" (.arr (nodes.map (processNode repl userId name)))
  | _ => json

/-! ### Lifecycle operations (WorkflowBuilder.build_from_template,
update_workflow, delete_workflow, toggle_workflow_status) -/

/-- `N8nClient.build_webhook_url`:
`f"{self.webhook_base_url}/{user_id}/{workflow_id}"`. -/
def buildWebhookUrl (webhookBase userId workflowId : String) : String :=
  webhookBase ++ "/" ++ userId ++ "/" ++ workflowId

/-- A `UserWorkflow` record as persisted by the builder. -/
structure UserWorkflow where
  id : String
  user_id : String
  template_id : String
  n8n_workflow_id : String
  name : String
  status : String
  webhook_url : String
  configuration : InputMap
  updated_at : Option String

/-- Externally observable side effects of a lifecycle operation, in order. -/
inductive BuilderAction where
  | remoteCreate (json : List (String × Val))
  | remoteActivate (id : String)
  | remoteDeactivate (id : String)
  | remoteUpdate (id : String)
  | remoteDelete (id : String)
  | dbPersist (id : String)

/-- `WorkflowBuilder.build_from_template`: validate, generate the definition,
create and activate it remotely, derive the webhook URL from the
remote-assigned id, persist the local record.  The remote-call and persistence
outcomes are supplied as oracles standing for the awaited client and session
calls (each client method wraps failures in `N8nClientError`; the oracle value
is that wrapped outcome, with `createRemote` yielding the id of the created
artifact).  On any failure after the remote create succeeded, the compensating
remote delete is attempted and its own outcome is discarded
(`try ... except: pass`) before the original error is re-raised. -/
def buildFromTemplate
    (createRemote : List (String × Val) → Except PyError String)
    (activateRemote : String → Except PyError Unit)
    (persistDb : UserWorkflow → Except PyError Unit)
    (cleanupDelete : String → Except PyError Unit)
    (webhookBase : String) (template : WorkflowTemplate) (userId : String)
    (inputs : InputMap) (customName : Option String) (ts newId : String) :
    Except PyError UserWorkflow × List BuilderAction :=
  match validateInputs template inputs with
  | .error e => (.error e, [])
  | .ok inputs1 =>
    let wfJson := generateWorkflowJson template userId inputs1 customName ts
    match createRemote wfJson with
    | .error e => (.error e, [.remoteCreate wfJson])
    | .ok remoteId =>
      match activateRemote remoteId with
      | .error e =>
        let _cleanup := cleanupDelete remoteId
        (.error e, [.remoteCreate wfJson, .remoteActivate remoteId, .remoteDelete remoteId])
      | .ok _ =>
        let record : UserWorkflow :=
          { id := newId
            user_id := userId
            template_id := template.id
            n8n_workflow_id := remoteId
            name := match lookupMap wfJson "name" with
                    | some (.str n) => n
                    | _ => ""
            status := "active"
            webhook_url := buildWebhookUrl webhookBase userId remoteId
            configuration := inputs1
            updated_at := none }
        match persistDb record with
        | .error e =>
          let _cleanup := cleanupDelete remoteId
          (.error e,
           [.remoteCreate wfJson, .remoteActivate remoteId, .dbPersist newId,
            .remoteDelete remoteId])
        | .ok _ =>
          (.ok record, [.remoteCreate wfJson, .remoteActivate remoteId, .dbPersist newId])

/-- `WorkflowBuilder.update_workflow`: look up the record and its template,
merge the partial updates into the stored configuration, re-validate, rebuild
the definition, push it to the remote engine, and only then write the new
configuration and `updated_at` locally and commit.  A missing template makes
Python dereference `None` (`AttributeError`).  The remote outcome oracle
stands for `await self.n8n.update_workflow(...)`. -/
def updateWorkflow
    (updateRemote : String → List (String × Val) → Except PyError Unit)
    (templates : List WorkflowTemplate) (db : List UserWorkflow)
    (workflowId : String) (updates : InputMap) (ts : String) :
    Except PyError UserWorkflow × List UserWorkflow :=
  match db.find? (fun w => w.id == workflowId) with
  | none => (.error (.valueError ("Workflow " ++ workflowId ++ " not found")), db)
  | some workflow =>
    match templates.find? (fun t => t.id == workflow.template_id) with
    | none =>
      (.error (.attributeError "NoneType object has no attribute required_inputs"), db)
    | some template =>
      match validateInputs template (mergeMap workflow.configuration updates) with
      | .error e => (.error e, db)
      | .ok newConfig =>
        let wfJson :=
          generateWorkflowJson template workflow.user_id newConfig (some workflow.name) ts
        match updateRemote workflow.n8n_workflow_id wfJson with
        | .error e => (.error e, db)
        | .ok _ =>
          let updated := { workflow with configuration := newConfig, updated_at := some ts }
          (.ok updated, db.map fun w => if w.id == workflowId then updated else w)

/-- `WorkflowBuilder.delete_workflow`: look up the record, attempt the remote
deletion with the failure merely logged (`except Exception: logger.warning`),
then unconditionally delete the local record and commit. -/
def deleteWorkflow (deleteRemote : String → Except PyError Unit)
    (db : List UserWorkflow) (workflowId : String) :
    Except PyError Unit × List UserWorkflow :=
  match db.find? (fun w => w.id == workflowId) with
  | none => (.error (.valueError ("Workflow " ++ workflowId ++ " not found")), db)
  | some workflow =>
    let _remote := deleteRemote workflow.n8n_workflow_id
    (.ok (), db.eraseP (fun w => w.id == workflowId))

/-- `WorkflowBuilder.toggle_workflow_status`: look up the record, call the
remote activate or deactivate, and only after it returns set the local
`status` to `active`/`paused`, stamp `updated_at`, and commit. -/
def toggleWorkflowStatus
    (activateRemote deactivateRemote : String → Except PyError Unit)
    (db : List UserWorkflow) (workflowId : String) (active : Bool) (ts : String) :
    Except PyError UserWorkflow × List UserWorkflow :=
  match db.find? (fun w => w.id == workflowId) with
  | none => (.error (.valueError ("Workflow " ++ workflowId ++ " not found")), db)
  | some workflow =>
    if active then
      match activateRemote workflow.n8n_workflow_id with
      | .error e => (.error e, db)
      | .ok _ =>
        let updated := { workflow with status := "active", updated_at := some ts }
        (.ok updated, db.map fun w => if w.id == workflowId then updated else w)
    else
      match deactivateRemote workflow.n8n_workflow_id with
      | .error e => (.error e, db)
      | .ok _ =>
        let updated := { workflow with status := "paused", updated_at := some ts }
        (.ok updated, db.map fun w => if w.id == workflowId then updated else w)

/-! ### Claims about the remote client (C1, C2) -/

theorem applyFailures_five (t1 t2 t3 t4 t5 : Int) :
    applyFailures initState [t1, t2, t3, t4, t5] = ⟨5, true, some t5⟩ := by
  simp [applyFailures, recordFailure, initState, List.foldl]

/-- C1 (amended): once 5 consecutive call failures have been recorded on a
fresh client, the breaker is open, and every call made while the elapsed time
since the last failure is at most the 60-second timeout fails immediately —
zero network attempts, no sleeps, state unchanged — with an `N8nClientError`
carrying the breaker-open message (the module defines no separate
circuit-open exception class). -/
theorem breaker_open_fastfail (t1 t2 t3 t4 t5 now : Int) (ep : String)
    (out : Nat → NetOutcome) (rc : Nat) (h : now - t5 ≤ 60) :
    (applyFailures initState [t1, t2, t3, t4, t5]).circuit_open = true ∧
    makeRequest ep out rc (applyFailures initState [t1, t2, t3, t4, t5]) now =
      ⟨.error (.n8nClientError breakerOpenMsg),
       applyFailures initState [t1, t2, t3, t4, t5], [], 0⟩ := by
  rw [applyFailures_five]
  have hax : ¬(now - t5 > circuitTimeout) := by simp [circuitTimeout]; omega
  refine ⟨rfl, ?_⟩
  simp [makeRequest, checkCircuitBreaker, hax]

/-- Witness for `breaker_open_fastfail` at concrete times. -/
theorem breaker_open_fastfail_witness :
    (applyFailures initState [0, 0, 0, 0, 0]).circuit_open = true ∧
    makeRequest "/workflows" (fun _ => .status 503 "boom") 3
        (applyFailures initState [0, 0, 0, 0, 0]) 30 =
      ⟨.error (.n8nClientError breakerOpenMsg),
       applyFailures initState [0, 0, 0, 0, 0], [], 0⟩ :=
  breaker_open_fastfail 0 0 0 0 0 30 "/workflows" (fun _ => .status 503 "boom") 3
    (by decide)

/-- C1 counterexample: the error raised when the breaker is open and the
error surfaced by an exhausted-retries remote failure are values of the same
(and only) exception class `N8nClientError` — the code does not raise a
distinct circuit-open error type. -/
theorem breaker_error_class_counterexample :
    (makeRequest "/workflows" (fun _ => .status 503 "boom") 3
        (applyFailures initState [0, 0, 0, 0, 0]) 0).result =
      .error (.n8nClientError breakerOpenMsg) ∧
    (makeRequest "/workflows" (fun _ => .status 503 "boom") 3 initState 0).result =
      .error (.n8nClientError ("n8n server error: " ++ "boom")) ∧
    PyError.sameClass (.n8nClientError breakerOpenMsg)
      (.n8nClientError ("n8n server error: " ++ "boom")) = true :=
  ⟨rfl, rfl, rfl⟩

theorem requestLoop_retry_step (ep : String) (out : Nat → NetOutcome)
    (s : ClientState) (now : Int) (attempt fuel : Nat)
    (h : (out attempt).retryable = true) :
    requestLoop ep out s now attempt (fuel + 2) =
      ⟨(requestLoop ep out s now (attempt + 1) (fuel + 1)).result,
       (requestLoop ep out s now (attempt + 1) (fuel + 1)).state,
       2 ^ attempt :: (requestLoop ep out s now (attempt + 1) (fuel + 1)).sleeps,
       (requestLoop ep out s now (attempt + 1) (fuel + 1)).attempts + 1⟩ := by
  cases hout : out attempt with
  | netError m => simp [requestLoop, hout]
  | status code body =>
    have hcode : 500 ≤ code := by simpa [NetOutcome.retryable, hout] using h
    have h200 : ¬(code = 200) := by omega
    have h401 : ¬(code = 401) := by omega
    have h404 : ¬(code = 404) := by omega
    simp [requestLoop, hout, h200, h401, h404, hcode]

theorem requestLoop_retry_last (ep : String) (out : Nat → NetOutcome)
    (s : ClientState) (now : Int) (attempt : Nat)
    (h : (out attempt).retryable = true) :
    requestLoop ep out s now attempt 1 =
      ⟨.error (.n8nClientError ((out attempt).lastErrMsg)), recordFailure s now, [], 1⟩ := by
  cases hout : out attempt with
  | netError m => simp [requestLoop, hout, NetOutcome.lastErrMsg]
  | status code body =>
    have hcode : 500 ≤ code := by simpa [NetOutcome.retryable, hout] using h
    have h200 : ¬(code = 200) := by omega
    have h401 : ¬(code = 401) := by omega
    have h404 : ¬(code = 404) := by omega
    simp [requestLoop, hout, h200, h401, h404, hcode, NetOutcome.lastErrMsg]

/-- C2: with the breaker closed, a call whose every attempt yields a
retryable outcome (status `>= 500` or a network-level failure) is attempted
exactly 3 times, sleeping `2 ^ 0 = 1` then `2 ^ 1 = 2` time units between
consecutive attempts, surfaces the final attempt's error, and records exactly
one breaker failure; a call whose first attempt returns status 401 is
attempted exactly once, raises the fatal authentication error, performs no
sleep, and leaves the breaker state unchanged. -/
theorem retry_bound (ep : String) (out out2 : Nat → NetOutcome) (s : ClientState)
    (now : Int) (body2 : String) (hclosed : s.circuit_open = false)
    (hret : ∀ i, (out i).retryable = true) (h401 : out2 0 = .status 401 body2) :
    makeRequest ep out 3 s now =
      ⟨.error (.n8nClientError ((out 2).lastErrMsg)), recordFailure s now, [1, 2], 3⟩ ∧
    makeRequest ep out2 3 s now =
      ⟨.error (.n8nClientError "n8n API authentication failed"), s, [], 1⟩ := by
  have hcheck : checkCircuitBreaker s now = .ok s := by
    simp [checkCircuitBreaker, hclosed]
  constructor
  · have e1 := requestLoop_retry_step ep out s now 0 1 (hret 0)
    have e2 := requestLoop_retry_step ep out s now 1 0 (hret 1)
    have e3 := requestLoop_retry_last ep out s now 2 (hret 2)
    norm_num at e1 e2
    simp [makeRequest, hcheck, e1, e2, e3]
  · simp [makeRequest, hcheck, requestLoop, h401]

/-- Witness for `retry_bound`: an always-503 call and a 401 call. -/
theorem retry_bound_witness :
    makeRequest "/workflows" (fun _ => .status 503 "down") 3 initState 0 =
      ⟨.error (.n8nClientError ("n8n server error: " ++ "down")),
       recordFailure initState 0, [1, 2], 3⟩ ∧
    makeRequest "/workflows" (fun _ => .status 401 "no") 3 initState 0 =
      ⟨.error (.n8nClientError "n8n API authentication failed"), initState, [], 1⟩ :=
  retry_bound "/workflows" (fun _ => .status 503 "down") (fun _ => .status 401 "no")
    initState 0 "no" rfl (fun _ => rfl) rfl

/-! ### Basic dictionary lemmas -/

theorem lookup_insertMap_self (m : InputMap) (k : String) (v : Val) :
    lookupMap (insertMap m k v) k = some v := by
  induction m with
  | nil => simp [insertMap, lookupMap]
  | cons kv rest ih =>
    obtain ⟨k1, v1⟩ := kv
    by_cases h : k1 = k
    · simp [insertMap, lookupMap, h]
    · simp [insertMap, lookupMap, h, ih]

theorem lookup_insertMap_ne (m : InputMap) (k k2 : String) (v : Val)
    (h : k2 ≠ k) : lookupMap (insertMap m k v) k2 = lookupMap m k2 := by
  have h2 : k ≠ k2 := Ne.symm h
  induction m with
  | nil => simp [insertMap, lookupMap, h2]
  | cons kv rest ih =>
    obtain ⟨k1, v1⟩ := kv
    by_cases h1 : k1 = k
    · subst h1
      simp [insertMap, lookupMap, h2]
    · simp [insertMap, lookupMap, h1, ih]

/-! ### Lifecycle claims C3, C6, C7 -/

/-- C3: during create, when the remote create (and activate) succeeded and
local persistence fails, the compensating remote delete of the just-created
artifact is attempted, any outcome of that delete — including a failure — is
swallowed (the oracle `cleanupDelete` is unconstrained here), and the original
persistence error is the one returned to the caller. -/
theorem create_compensation
    (createRemote : List (String × Val) → Except PyError String)
    (activateRemote : String → Except PyError Unit)
    (persistDb : UserWorkflow → Except PyError Unit)
    (cleanupDelete : String → Except PyError Unit)
    (webhookBase : String) (template : WorkflowTemplate) (userId : String)
    (inputs inputs1 : InputMap) (customName : Option String) (ts newId rid : String)
    (e : PyError)
    (hval : validateInputs template inputs = .ok inputs1)
    (hcreate : ∀ j, createRemote j = .ok rid)
    (hact : ∀ i, activateRemote i = .ok ())
    (hpersist : ∀ r, persistDb r = .error e) :
    buildFromTemplate createRemote activateRemote persistDb cleanupDelete webhookBase
        template userId inputs customName ts newId =
      (.error e,
       [.remoteCreate (generateWorkflowJson template userId inputs1 customName ts),
        .remoteActivate rid, .dbPersist newId, .remoteDelete rid]) := by
  simp [buildFromTemplate, hval, hcreate, hact, hpersist]

/-- Concrete template used by the lifecycle witnesses: one webhook node whose
`path` parameter holds a placeholder. -/
def tmplW : WorkflowTemplate :=
  { id := "tmpl-1", name := "T", required_inputs := [], optional_inputs := [],
    n8n_json := [("nodes", Val.arr [Val.obj
      [("type", Val.str "n8n-nodes-base.webhook"),
       ("parameters", Val.obj [("path", Val.str "\x7b\x7bpath\x7d\x7d")])]])] }

/-- Witness for `create_compensation`: the cleanup delete itself fails and is
still swallowed; the persistence error comes back. -/
theorem create_compensation_witness :
    buildFromTemplate (fun _ => .ok "rw1") (fun _ => .ok ())
        (fun _ => .error (.valueError "db down"))
        (fun _ => .error (.n8nClientError "cleanup failed"))
        "https://hooks" tmplW "user-123" [] none "20260101_000000" "local-1" =
      (.error (.valueError "db down"),
       [.remoteCreate (generateWorkflowJson tmplW "user-123" [] none "20260101_000000"),
        .remoteActivate "rw1", .dbPersist "local-1", .remoteDelete "rw1"]) :=
  create_compensation (fun _ => .ok "rw1") (fun _ => .ok ())
    (fun _ => .error (.valueError "db down"))
    (fun _ => .error (.n8nClientError "cleanup failed"))
    "https://hooks" tmplW "user-123" [] [] none "20260101_000000" "local-1" "rw1"
    (.valueError "db down") rfl (fun _ => rfl) (fun _ => rfl) (fun _ => rfl)

/-- C6: for update and toggle, a failing remote call makes the operation
return that error with the database unchanged (no record is mutated), and the
local record is modified — new configuration or status, fresh `updated_at` —
exactly when the corresponding remote call succeeded. -/
theorem update_toggle_local_after_remote
    (updateRemote : String → List (String × Val) → Except PyError Unit)
    (activateRemote deactivateRemote : String → Except PyError Unit)
    (templates : List WorkflowTemplate) (db : List UserWorkflow)
    (workflowId : String) (updates : InputMap) (ts : String) (e : PyError)
    (w : UserWorkflow) (template : WorkflowTemplate) (newConfig : InputMap)
    (hfind : db.find? (fun x => x.id == workflowId) = some w)
    (htmpl : templates.find? (fun t => t.id == w.template_id) = some template)
    (hval : validateInputs template (mergeMap w.configuration updates) = .ok newConfig) :
    ((∀ i j, updateRemote i j = .error e) →
      updateWorkflow updateRemote templates db workflowId updates ts = (.error e, db)) ∧
    ((∀ i j, updateRemote i j = .ok ()) →
      updateWorkflow updateRemote templates db workflowId updates ts =
        (.ok { w with configuration := newConfig, updated_at := some ts },
         db.map fun x => if x.id == workflowId then
            { w with configuration := newConfig, updated_at := some ts } else x)) ∧
    ((∀ i, activateRemote i = .error e) →
      toggleWorkflowStatus activateRemote deactivateRemote db workflowId true ts =
        (.error e, db)) ∧
    ((∀ i, deactivateRemote i = .error e) →
      toggleWorkflowStatus activateRemote deactivateRemote db workflowId false ts =
        (.error e, db)) ∧
    ((∀ i, activateRemote i = .ok ()) →
      toggleWorkflowStatus activateRemote deactivateRemote db workflowId true ts =
        (.ok { w with status := "active", updated_at := some ts },
         db.map fun x => if x.id == workflowId then
            { w with status := "active", updated_at := some ts } else x)) ∧
    ((∀ i, deactivateRemote i = .ok ()) →
      toggleWorkflowStatus activateRemote deactivateRemote db workflowId false ts =
        (.ok { w with status := "paused", updated_at := some ts },
         db.map fun x => if x.id == workflowId then
            { w with status := "paused", updated_at := some ts } else x)) := by
  refine ⟨?_, ?_, ?_, ?_, ?_, ?_⟩ <;> intro hr
  · simp [updateWorkflow, hfind, htmpl, hval, hr]
  · simp [updateWorkflow, hfind, htmpl, hval, hr]
  · simp [toggleWorkflowStatus, hfind, hr]
  · simp [toggleWorkflowStatus, hfind, hr]
  · simp [toggleWorkflowStatus, hfind, hr]
  · simp [toggleWorkflowStatus, hfind, hr]

/-- Concrete stored record used by the lifecycle witnesses. -/
def wRecord : UserWorkflow :=
  { id := "w1", user_id := "user-123", template_id := "tmpl-1",
    n8n_workflow_id := "rw1", name := "T_user-123_x", status := "active",
    webhook_url := "https://hooks/user-123/rw1", configuration := [],
    updated_at := none }

/-- Witness for `update_toggle_local_after_remote`: a failing remote update
and a failing remote activate both leave the stored record untouched. -/
theorem update_toggle_local_after_remote_witness :
    updateWorkflow (fun _ _ => .error (.n8nClientError "down")) [tmplW] [wRecord]
        "w1" [] "ts2" = (.error (.n8nClientError "down"), [wRecord]) ∧
    toggleWorkflowStatus (fun _ => .error (.n8nClientError "down")) (fun _ => .ok ())
        [wRecord] "w1" true "ts2" = (.error (.n8nClientError "down"), [wRecord]) :=
  ⟨(update_toggle_local_after_remote (fun _ _ => .error (.n8nClientError "down"))
      (fun _ => .error (.n8nClientError "down")) (fun _ => .ok ()) [tmplW] [wRecord]
      "w1" [] "ts2" (.n8nClientError "down") wRecord tmplW []
      rfl rfl rfl).1 (fun _ _ => rfl),
   (update_toggle_local_after_remote (fun _ _ => .error (.n8nClientError "down"))
      (fun _ => .error (.n8nClientError "down")) (fun _ => .ok ()) [tmplW] [wRecord]
      "w1" [] "ts2" (.n8nClientError "down") wRecord tmplW []
      rfl rfl rfl).2.2.1 (fun _ => rfl)⟩

theorem find?_eraseP_eq_none (db : List UserWorkflow) (wid : String)
    (hnodup : (db.map (fun w => w.id)).Nodup) :
    (db.eraseP (fun w => w.id == wid)).find? (fun w => w.id == wid) = none := by
  induction db with
  | nil => simp
  | cons a rest ih =>
    simp only [List.map_cons, List.nodup_cons] at hnodup
    by_cases ha : a.id = wid
    · rw [List.eraseP_cons_of_pos (by simp [ha])]
      apply List.find?_eq_none.mpr
      intro x hx
      simp only [beq_iff_eq]
      intro hxid
      exact hnodup.1 (List.mem_map.mpr ⟨x, hx, by rw [hxid, ha]⟩)
    · rw [List.eraseP_cons_of_neg (by simp [ha])]
      rw [List.find?_cons_of_neg _ (by simp [ha])]
      exact ih hnodup.2

/-- C7: deleting an instantiated workflow succeeds and leaves no local record
with that id, for any outcome of the remote deletion — the `deleteRemote`
oracle is unconstrained, so a failing remote delete is tolerated. -/
theorem lenient_delete (deleteRemote : String → Except PyError Unit)
    (db : List UserWorkflow) (wid : String) (w : UserWorkflow)
    (hfind : db.find? (fun x => x.id == wid) = some w)
    (hnodup : (db.map (fun x => x.id)).Nodup) :
    (deleteWorkflow deleteRemote db wid).1 = .ok () ∧
    (deleteWorkflow deleteRemote db wid).2.find? (fun x => x.id == wid) = none := by
  refine ⟨?_, ?_⟩ <;> simp only [deleteWorkflow, hfind]
  exact find?_eraseP_eq_none db wid hnodup

/-- Witness for `lenient_delete`: the remote deletion fails, the local record
is gone anyway. -/
theorem lenient_delete_witness :
    (deleteWorkflow (fun _ => .error (.n8nClientError "net down")) [wRecord] "w1").1 =
      .ok () ∧
    (deleteWorkflow (fun _ => .error (.n8nClientError "net down")) [wRecord]
        "w1").2.find? (fun x => x.id == "w1") = none :=
  lenient_delete (fun _ => .error (.n8nClientError "net down")) [wRecord] "w1" wRecord
    rfl (by simp)

/-! ### Webhook path claims C9, C10 -/

/-- Observation: the `parameters.path` value of a node, when the node is a
dict whose `parameters` is a dict. -/
def nodeParamsPath (node : Val) : Option Val :=
  match node with
  | .obj fs =>
    match lookupMap fs "parameters" with
    | some (.obj ps) => lookupMap ps "path"
    | _ => none
  | _ => none

/-- Observation: the node is a dict of the webhook trigger type carrying a
`parameters` dict that contains a `path` key — the shape on which
`_generate_workflow_json` rewrites the subscription path. -/
def isWebhookNodeWithPath (node : Val) : Bool :=
  match node with
  | .obj fs =>
    (match lookupMap fs "type" with
     | some (.str t) => t == webhookType
     | _ => false) &&
    (match lookupMap fs "parameters" with
     | some (.obj ps) => (lookupMap ps "path").isSome
     | _ => false)
  | _ => false

theorem lookup_replaceFields (repl : InputMap) (fs : List (String × Val))
    (k : String) :
    lookupMap (replaceFields repl fs) k =
      (lookupMap fs k).map (replacePlaceholders repl) := by
  induction fs with
  | nil => simp [replaceFields, lookupMap]
  | cons kv rest ih =>
    obtain ⟨k1, v1⟩ := kv
    by_cases h : k1 = k
    · simp [replaceFields, lookupMap, h]
    · simp [replaceFields, lookupMap, h, ih]

theorem processNode_webhook_path (repl : InputMap) (userId wfName : String)
    (node : Val) (h : isWebhookNodeWithPath node = true) :
    nodeParamsPath (processNode repl userId wfName node) =
      some (.str (userId ++ "/" ++ wfName)) := by
  match node with
  | .str _ | .num _ | .bool _ | .null | .arr _ =>
    simp [isWebhookNodeWithPath] at h
  | .obj fs =>
    simp only [isWebhookNodeWithPath, Bool.and_eq_true] at h
    obtain ⟨h1, h2⟩ := h
    have htyp : lookupMap fs "type" = some (.str webhookType) := by
      cases ht : lookupMap fs "type" with
      | none => rw [ht] at h1; exact absurd h1 (by simp)
      | some v =>
        cases v with
        | str t =>
          rw [ht] at h1
          simp only [beq_iff_eq] at h1
          rw [h1]
        | num n => rw [ht] at h1; exact absurd h1 (by simp)
        | bool b => rw [ht] at h1; exact absurd h1 (by simp)
        | null => rw [ht] at h1; exact absurd h1 (by simp)
        | arr xs => rw [ht] at h1; exact absurd h1 (by simp)
        | obj gs => rw [ht] at h1; exact absurd h1 (by simp)
    obtain ⟨ps, hps, hpath⟩ :
        ∃ ps, lookupMap fs "parameters" = some (.obj ps) ∧
          (lookupMap ps "path").isSome = true := by
      cases hp : lookupMap fs "parameters" with
      | none => rw [hp] at h2; exact absurd h2 (by simp)
      | some v =>
        cases v with
        | obj ps => rw [hp] at h2; exact ⟨ps, rfl, h2⟩
        | str s => rw [hp] at h2; exact absurd h2 (by simp)
        | num n => rw [hp] at h2; exact absurd h2 (by simp)
        | bool b => rw [hp] at h2; exact absurd h2 (by simp)
        | null => rw [hp] at h2; exact absurd h2 (by simp)
        | arr xs => rw [hp] at h2; exact absurd h2 (by simp)
    have hne_pt : ("type" : String) ≠ "parameters" := by decide
    have hne_ct : ("type" : String) ≠ "credentials" := by decide
    have hne_pc : ("parameters" : String) ≠ "credentials" := by decide
    cases hpp : lookupMap ps "path" with
    | none => rw [hpp] at hpath; exact absurd hpath (by simp)
    | some pv =>
      have hrp : lookupMap (replaceFields repl ps) "path" =
          some (replacePlaceholders repl pv) := by
        rw [lookup_replaceFields, hpp]; rfl
      cases hc : lookupMap (insertMap fs "parameters"
          (Val.obj (replaceFields repl ps))) "credentials" with
      | none =>
        simp only [processNode, hps, replacePlaceholders, hc,
          lookup_insertMap_ne fs "parameters" "type"
            (Val.obj (replaceFields repl ps)) hne_pt,
          htyp, beq_self_eq_true, if_true,
          lookup_insertMap_self fs "parameters" (Val.obj (replaceFields repl ps)),
          hrp, Option.isSome_some, nodeParamsPath, lookup_insertMap_self]
      | some c =>
        simp only [processNode, hps, replacePlaceholders, hc,
          lookup_insertMap_ne
            (insertMap fs "parameters" (Val.obj (replaceFields repl ps)))
            "credentials" "type" (injectCredentials c userId) hne_ct,
          lookup_insertMap_ne fs "parameters" "type"
            (Val.obj (replaceFields repl ps)) hne_pt,
          htyp, beq_self_eq_true, if_true,
          lookup_insertMap_ne
            (insertMap fs "parameters" (Val.obj (replaceFields repl ps)))
            "credentials" "parameters" (injectCredentials c userId) hne_pc,
          lookup_insertMap_self fs "parameters" (Val.obj (replaceFields repl ps)),
          hrp, Option.isSome_some, nodeParamsPath, lookup_insertMap_self]

theorem generate_nodes (template : WorkflowTemplate) (userId ts : String)
    (customName : Option String) (inputs : InputMap) (nodes : List Val)
    (hnodes : lookupMap template.n8n_json "nodes" = some (.arr nodes)) :
    generateWorkflowJson template userId inputs customName ts =
      insertMap (insertMap template.n8n_json "name"
          (.str (workflowName template userId ts customName))) "nodes"
        (.arr (nodes.map (processNode (mergeMap
            [("user_id", Val.str userId),
             ("workflow_name", Val.str (workflowName template userId ts customName)),
             ("timestamp", Val.str ts)] inputs)
          userId (workflowName template userId ts customName)))) := by
  have h1 : lookupMap (insertMap template.n8n_json "name"
      (.str (workflowName template userId ts customName))) "nodes" =
      some (.arr nodes) := by
    rw [lookup_insertMap_ne _ _ _ _ (by decide : ("nodes" : String) ≠ "name")]
    exact hnodes
  simp only [generateWorkflowJson, h1]

theorem generate_name_any (template : WorkflowTemplate) (userId ts : String)
    (customName : Option String) (inputs : InputMap) :
    lookupMap (generateWorkflowJson template userId inputs customName ts) "name" =
      some (.str (workflowName template userId ts customName)) := by
  simp only [generateWorkflowJson]
  split
  · rw [lookup_insertMap_ne _ _ _ _ (by decide : ("name" : String) ≠ "nodes"),
        lookup_insertMap_self]
  · rw [lookup_insertMap_self]

/-- C9: compiling a template rewrites every webhook-type node that carries a
`parameters.path` key: in the generated definition the node list is the
processed original list, and each such node's path equals exactly
`{user_id}/{workflow_name}`, whatever placeholder the template put there. -/
theorem webhook_path_forced (template : WorkflowTemplate) (userId ts : String)
    (customName : Option String) (inputs : InputMap) (nodes : List Val)
    (hnodes : lookupMap template.n8n_json "nodes" = some (.arr nodes)) :
    lookupMap (generateWorkflowJson template userId inputs customName ts) "nodes" =
      some (.arr (nodes.map (processNode (mergeMap
          [("user_id", Val.str userId),
           ("workflow_name", Val.str (workflowName template userId ts customName)),
           ("timestamp", Val.str ts)] inputs)
        userId (workflowName template userId ts customName)))) ∧
    ∀ node ∈ nodes, isWebhookNodeWithPath node = true →
      nodeParamsPath (processNode (mergeMap
          [("user_id", Val.str userId),
           ("workflow_name", Val.str (workflowName template userId ts customName)),
           ("timestamp", Val.str ts)] inputs)
        userId (workflowName template userId ts customName) node) =
        some (.str (userId ++ "/" ++ workflowName template userId ts customName)) := by
  refine ⟨?_, ?_⟩
  · rw [generate_nodes template userId ts customName inputs nodes hnodes,
        lookup_insertMap_self]
  · intro node _ hweb
    exact processNode_webhook_path _ _ _ _ hweb

/-- Witness for `webhook_path_forced`: the template's webhook node holds the
placeholder `{{path}}`, and compilation overwrites it with
`user-123/<generated name>`. -/
theorem webhook_path_forced_witness :
    nodeParamsPath (processNode
        (mergeMap [("user_id", Val.str "user-123"),
          ("workflow_name", Val.str (workflowName tmplW "user-123" "ts" none)),
          ("timestamp", Val.str "ts")] [])
        "user-123" (workflowName tmplW "user-123" "ts" none)
        (Val.obj [("type", Val.str "n8n-nodes-base.webhook"),
          ("parameters", Val.obj [("path", Val.str "\x7b\x7bpath\x7d\x7d")])])) =
      some (.str ("user-123" ++ "/" ++ workflowName tmplW "user-123" "ts" none)) :=
  (webhook_path_forced tmplW "user-123" "ts" none [] _ rfl).2 _ (by simp [tmplW]) rfl

theorem str_data_append (a b : String) : (a ++ b).data = a.data ++ b.data := by
  cases a; cases b; rfl

theorem string_append_cancel_left (a b c : String) : a ++ b = a ++ c ↔ b = c := by
  constructor
  · intro h
    have hd : a.data ++ b.data = a.data ++ c.data := by
      rw [← str_data_append, ← str_data_append, h]
    exact String.ext (List.append_cancel_left hd)
  · intro h; rw [h]

/-- C10: after a successful create, the persisted record's `webhook_url` is
the webhook base joined with `{user_id}/{remote id}` (the id assigned by the
remote engine), while every webhook node inside the submitted definition got
the path `{user_id}/{workflow name}` (the generated instance name); the two
agree exactly when the remote-assigned id equals the generated name. -/
theorem webhook_url_vs_path
    (createRemote : List (String × Val) → Except PyError String)
    (activateRemote : String → Except PyError Unit)
    (persistDb : UserWorkflow → Except PyError Unit)
    (cleanupDelete : String → Except PyError Unit)
    (webhookBase : String) (template : WorkflowTemplate) (userId : String)
    (inputs inputs1 : InputMap) (customName : Option String) (ts newId rid : String)
    (hval : validateInputs template inputs = .ok inputs1)
    (hcreate : ∀ j, createRemote j = .ok rid)
    (hact : ∀ i, activateRemote i = .ok ())
    (hpersist : ∀ r, persistDb r = .ok ()) :
    buildFromTemplate createRemote activateRemote persistDb cleanupDelete webhookBase
        template userId inputs customName ts newId =
      (.ok { id := newId, user_id := userId, template_id := template.id,
             n8n_workflow_id := rid,
             name := workflowName template userId ts customName,
             status := "active",
             webhook_url := buildWebhookUrl webhookBase userId rid,
             configuration := inputs1, updated_at := none },
       [.remoteCreate (generateWorkflowJson template userId inputs1 customName ts),
        .remoteActivate rid, .dbPersist newId]) ∧
    (∀ nodes node, lookupMap template.n8n_json "nodes" = some (.arr nodes) →
      node ∈ nodes → isWebhookNodeWithPath node = true →
      nodeParamsPath (processNode (mergeMap
          [("user_id", Val.str userId),
           ("workflow_name", Val.str (workflowName template userId ts customName)),
           ("timestamp", Val.str ts)] inputs1)
        userId (workflowName template userId ts customName) node) =
        some (.str (userId ++ "/" ++ workflowName template userId ts customName))) ∧
    (buildWebhookUrl webhookBase userId rid =
        webhookBase ++ "/" ++ userId ++ "/" ++ workflowName template userId ts customName ↔
      rid = workflowName template userId ts customName) := by
  refine ⟨?_, ?_, ?_⟩
  · simp only [buildFromTemplate, hval, hcreate, hact, hpersist, generate_name_any]
  · intro nodes node _ _ hweb
    exact processNode_webhook_path _ _ _ _ hweb
  · simp only [buildWebhookUrl]
    exact string_append_cancel_left _ _ _

/-- Witness for `webhook_url_vs_path`: with remote id `rw1` and instance name
`wfname`, the persisted URL matches the actual subscription URL only if
`rw1 = wfname`. -/
theorem webhook_url_vs_path_witness :
    buildWebhookUrl "https://hooks" "user-123" "rw1" =
        "https://hooks" ++ "/" ++ "user-123" ++ "/" ++
          workflowName tmplW "user-123" "ts" (some "wfname") ↔
      "rw1" = workflowName tmplW "user-123" "ts" (some "wfname") :=
  (webhook_url_vs_path (fun _ => .ok "rw1") (fun _ => .ok ()) (fun _ => .ok ())
    (fun _ => .ok ()) "https://hooks" tmplW "user-123" [] [] (some "wfname") "ts"
    "local-1" "rw1" rfl (fun _ => rfl) (fun _ => rfl) (fun _ => rfl)).2.2

/-! ### Substring and replacement lemmas for the substitution claims -/

theorem braceFree_cons (c : Char) (s : List Char) :
    braceFree (c :: s) = true ↔ (c ≠ lbrace ∧ c ≠ rbrace ∧ braceFree s = true) := by
  simp [braceFree, and_assoc]

theorem braceFree_append (a b : List Char) :
    braceFree (a ++ b) = true ↔ (braceFree a = true ∧ braceFree b = true) := by
  simp [braceFree, List.all_append]

theorem startsWithL_append (p t : List Char) : startsWithL p (p ++ t) = true := by
  induction p with
  | nil => simp [startsWithL]
  | cons c cs ih => simp [startsWithL, ih]

theorem hasSubL_of_startsWith (p s : List Char) (h : startsWithL p s = true) :
    hasSubL p s = true := by
  cases s with
  | nil => simpa [hasSubL] using h
  | cons c cs => simp [hasSubL, h]

theorem hasSubL_append_mid (p pre suf : List Char) :
    hasSubL p (pre ++ (p ++ suf)) = true := by
  induction pre with
  | nil =>
    simp only [List.nil_append]
    exact hasSubL_of_startsWith _ _ (startsWithL_append p suf)
  | cons c cs ih => simp [hasSubL, ih]

theorem hasSubL_lb_skip (q pre rest : List Char) (h : braceFree pre = true) :
    hasSubL (lbrace :: q) (pre ++ rest) = hasSubL (lbrace :: q) rest := by
  induction pre with
  | nil => simp
  | cons c cs ih =>
    obtain ⟨hc, -, hcs⟩ := (braceFree_cons c cs).mp h
    have hsw : startsWithL (lbrace :: q) (c :: (cs ++ rest)) = false := by
      simp [startsWithL, Ne.symm hc]
    simp [hasSubL, hsw, ih hcs]

theorem hasSubL_lb_braceFree (q s : List Char) (h : braceFree s = true) :
    hasSubL (lbrace :: q) s = false := by
  have h2 := hasSubL_lb_skip q s [] h
  simpa [hasSubL, startsWithL] using h2

theorem startsWithL_token_eq (j : List Char) :
    ∀ (k suf : List Char), braceFree j = true → braceFree k = true →
      startsWithL (j ++ [rbrace, rbrace]) (k ++ (rbrace :: rbrace :: suf)) = true →
      j = k := by
  induction j with
  | nil =>
    intro k suf _ hk h
    cases k with
    | nil => rfl
    | cons c cs =>
      obtain ⟨-, hc, -⟩ := (braceFree_cons c cs).mp hk
      simp [startsWithL, Ne.symm hc] at h
  | cons a as ih =>
    intro k suf hj hk h
    obtain ⟨ha1, ha2, has⟩ := (braceFree_cons a as).mp hj
    cases k with
    | nil => simp [startsWithL, ha2] at h
    | cons c cs =>
      obtain ⟨-, -, hcs⟩ := (braceFree_cons c cs).mp hk
      simp only [List.cons_append, startsWithL] at h
      by_cases hac : a = c
      · subst hac
        simp only [if_pos rfl] at h
        rw [ih cs suf has hcs h]
      · simp [hac] at h

theorem pattern_occ_eq (j k pre suf : List Char)
    (hj : braceFree j = true) (hk : braceFree k = true)
    (hpre : braceFree pre = true) (hsuf : braceFree suf = true)
    (h : hasSubL (patternL j) (pre ++ (patternL k ++ suf)) = true) : j = k := by
  have hlbrb : lbrace ≠ rbrace := by decide
  simp only [patternL] at h
  rw [hasSubL_lb_skip _ _ _ hpre] at h
  rw [show ((lbrace :: lbrace :: (k ++ [rbrace, rbrace])) ++ suf) =
      lbrace :: lbrace :: (k ++ (rbrace :: rbrace :: suf)) by simp] at h
  have hC : hasSubL (lbrace :: lbrace :: (j ++ [rbrace, rbrace]))
      (k ++ (rbrace :: rbrace :: suf)) = false := by
    rw [hasSubL_lb_skip _ _ _ hk]
    simp [hasSubL, startsWithL, hlbrb, hasSubL_lb_braceFree _ _ hsuf]
  have hB : startsWithL (lbrace :: lbrace :: (j ++ [rbrace, rbrace]))
      (lbrace :: (k ++ (rbrace :: rbrace :: suf))) = false := by
    cases k with
    | nil => simp [startsWithL, hlbrb]
    | cons c cs =>
      obtain ⟨hc, -, -⟩ := (braceFree_cons c cs).mp hk
      simp [startsWithL, Ne.symm hc]
  simp only [hasSubL, hB, hC, Bool.or_false, Bool.false_or] at h
  simp only [startsWithL, if_pos rfl] at h
  exact startsWithL_token_eq j k suf hj hk h

theorem replaceL_skip (pat rep pre rest : List Char) (hpat : ∃ q, pat = lbrace :: q)
    (hpre : braceFree pre = true) :
    replaceL pat rep (pre ++ rest) = pre ++ replaceL pat rep rest := by
  obtain ⟨q, rfl⟩ := hpat
  induction pre with
  | nil => simp
  | cons c cs ih =>
    obtain ⟨hc, -, hcs⟩ := (braceFree_cons c cs).mp hpre
    have hsw : startsWithL (lbrace :: q) (c :: (cs ++ rest)) = false := by
      simp [startsWithL, Ne.symm hc]
    simp [replaceL, hsw, ih hcs]

theorem replaceL_braceFree_id (pat rep s : List Char) (hpat : ∃ q, pat = lbrace :: q)
    (hs : braceFree s = true) : replaceL pat rep s = s := by
  have h2 := replaceL_skip pat rep s [] hpat hs
  simpa [replaceL] using h2

theorem replaceL_at (k rep suf : List Char) :
    replaceL (patternL k) rep (patternL k ++ suf) =
      rep ++ replaceL (patternL k) rep suf := by
  have hsw : startsWithL (patternL k)
      (lbrace :: ((lbrace :: (k ++ [rbrace, rbrace])) ++ suf)) = true := by
    have h := startsWithL_append (patternL k) suf
    simpa [patternL] using h
  have hform : patternL k ++ suf =
      lbrace :: ((lbrace :: (k ++ [rbrace, rbrace])) ++ suf) := by simp [patternL]
  have hne : ¬(patternL k = []) := by simp [patternL]
  rw [hform]
  simp only [replaceL, hsw, if_neg hne, if_true]
  rw [show (patternL k).length - 1 = (lbrace :: (k ++ [rbrace, rbrace])).length from by
      simp [patternL],
    List.drop_left]

theorem resolveLoop_braceFree (repl : InputMap) (res : List Char)
    (hres : braceFree res = true) :
    resolveLoop repl res = .str (String.mk res) := by
  induction repl with
  | nil => rfl
  | cons jw rest ih =>
    obtain ⟨j, w⟩ := jw
    have hno : hasSubL (patternL j.data) res = false := by
      have h2 := hasSubL_lb_braceFree (lbrace :: (j.data ++ [rbrace, rbrace])) res hres
      simpa [patternL] using h2
    simp only [resolveLoop, hno, Bool.false_eq_true, if_false]
    exact ih

theorem resolveLoop_whole (repl : InputMap) (k : String) (v : Val)
    (hbf : ∀ p ∈ repl, braceFree p.1.data = true)
    (hnd : (repl.map Prod.fst).Nodup)
    (hmem : (k, v) ∈ repl) :
    resolveLoop repl (patternL k.data) = v := by
  induction repl with
  | nil => simp at hmem
  | cons jw rest ih =>
    obtain ⟨j, w⟩ := jw
    simp only [List.map_cons, List.nodup_cons] at hnd
    rcases List.mem_cons.mp hmem with heq | hmem2
    · obtain ⟨h1, h2⟩ := Prod.mk.injEq k v j w ▸ heq
      subst h1; subst h2
      have hself : hasSubL (patternL k.data) (patternL k.data) = true := by
        apply hasSubL_of_startsWith
        have h3 := startsWithL_append (patternL k.data) []
        simpa using h3
      simp [resolveLoop, hself]
    · have hjk : j ≠ k := by
        intro hh
        exact hnd.1 (by rw [hh]; exact List.mem_map.mpr ⟨(k, v), hmem2, rfl⟩)
      have hbfj : braceFree j.data = true := hbf (j, w) (List.mem_cons_self _ _)
      have hbfk : braceFree k.data = true := hbf (k, v) (List.mem_cons.mpr (Or.inr hmem2))
      have hno : hasSubL (patternL j.data) (patternL k.data) = false := by
        cases hx : hasSubL (patternL j.data) (patternL k.data)
        · rfl
        · have hx2 : hasSubL (patternL j.data) ([] ++ (patternL k.data ++ [])) = true := by
            simpa using hx
          have hd := pattern_occ_eq j.data k.data [] [] hbfj hbfk rfl rfl hx2
          exact absurd (String.ext hd) hjk
      simp only [resolveLoop, hno, Bool.false_eq_true, if_false]
      exact ih (fun p hp => hbf p (List.mem_cons.mpr (Or.inr hp))) hnd.2 hmem2

theorem resolveLoop_inner (repl : InputMap) (k : String) (v : Val)
    (pre suf : List Char)
    (hbf : ∀ p ∈ repl, braceFree p.1.data = true)
    (hnd : (repl.map Prod.fst).Nodup)
    (hmem : (k, v) ∈ repl)
    (hpre : braceFree pre = true) (hsuf : braceFree suf = true)
    (hval : braceFree (pyStr v).data = true)
    (hnot : ¬(pre = [] ∧ suf = [])) :
    resolveLoop repl (pre ++ (patternL k.data ++ suf)) =
      .str (String.mk (pre ++ ((pyStr v).data ++ suf))) := by
  induction repl with
  | nil => simp at hmem
  | cons jw rest ih =>
    obtain ⟨j, w⟩ := jw
    simp only [List.map_cons, List.nodup_cons] at hnd
    rcases List.mem_cons.mp hmem with heq | hmem2
    · obtain ⟨h1, h2⟩ := Prod.mk.injEq k v j w ▸ heq
      subst h1; subst h2
      have hin : hasSubL (patternL k.data) (pre ++ (patternL k.data ++ suf)) = true :=
        hasSubL_append_mid _ _ _
      have hneq : ¬(pre ++ (patternL k.data ++ suf) = patternL k.data) := by
        intro hh
        have hlen := congrArg List.length hh
        simp [patternL] at hlen
        exact hnot ⟨List.length_eq_zero.mp (by omega), List.length_eq_zero.mp (by omega)⟩
      simp only [resolveLoop, hin, if_true, if_neg hneq]
      rw [replaceL_skip (patternL k.data) ((pyStr v).data) pre (patternL k.data ++ suf)
            ⟨lbrace :: (k.data ++ [rbrace, rbrace]), by simp [patternL]⟩ hpre,
          replaceL_at,
          replaceL_braceFree_id (patternL k.data) ((pyStr v).data) suf
            ⟨lbrace :: (k.data ++ [rbrace, rbrace]), by simp [patternL]⟩ hsuf]
      apply resolveLoop_braceFree
      rw [braceFree_append]
      exact ⟨hpre, (braceFree_append _ _).mpr ⟨hval, hsuf⟩⟩
    · have hjk : j ≠ k := by
        intro hh
        exact hnd.1 (by rw [hh]; exact List.mem_map.mpr ⟨(k, v), hmem2, rfl⟩)
      have hbfj : braceFree j.data = true := hbf (j, w) (List.mem_cons_self _ _)
      have hbfk : braceFree k.data = true := hbf (k, v) (List.mem_cons.mpr (Or.inr hmem2))
      have hno : hasSubL (patternL j.data) (pre ++ (patternL k.data ++ suf)) = false := by
        cases hx : hasSubL (patternL j.data) (pre ++ (patternL k.data ++ suf))
        · rfl
        · have hd := pattern_occ_eq j.data k.data pre suf hbfj hbfk hpre hsuf hx
          exact absurd (String.ext hd) hjk
      simp only [resolveLoop, hno, Bool.false_eq_true, if_false]
      exact ih (fun p hp => hbf p (List.mem_cons.mpr (Or.inr hp))) hnd.2 hmem2

/-- C4: placeholder substitution is type-preserving on whole-token strings
and stringifying inside longer strings.  For a binding map with brace-free,
duplicate-free keys: a string field that is exactly the token `{{k}}` of a
bound key resolves to the bound value itself, whatever its type (a numeric
binding stays numeric); a string in which the token occurs strictly inside
(brace-free context on both sides) resolves to a string with the stringified
value substituted. -/
theorem substitution_type_preserving :
    (∀ (repl : InputMap) (k : String) (v : Val),
      (∀ p ∈ repl, braceFree p.1.data = true) → (repl.map Prod.fst).Nodup →
      (k, v) ∈ repl →
      replacePlaceholders repl (.str (String.mk (patternL k.data))) = v) ∧
    (∀ (repl : InputMap) (k : String) (v : Val) (pre suf : List Char),
      (∀ p ∈ repl, braceFree p.1.data = true) → (repl.map Prod.fst).Nodup →
      (k, v) ∈ repl → braceFree pre = true → braceFree suf = true →
      braceFree (pyStr v).data = true → ¬(pre = [] ∧ suf = []) →
      replacePlaceholders repl (.str (String.mk (pre ++ (patternL k.data ++ suf)))) =
        .str (String.mk (pre ++ ((pyStr v).data ++ suf)))) := by
  constructor
  · intro repl k v hbf hnd hmem
    simpa [replacePlaceholders] using resolveLoop_whole repl k v hbf hnd hmem
  · intro repl k v pre suf hbf hnd hmem hpre hsuf hval hnot
    simpa [replacePlaceholders] using
      resolveLoop_inner repl k v pre suf hbf hnd hmem hpre hsuf hval hnot

/-- Witness for `substitution_type_preserving`: the numeric binding 42 for
`amount` replaces the whole-token string by the number itself, and the token
inside `x{{amount}}y` by its decimal text. -/
theorem substitution_type_preserving_witness :
    replacePlaceholders [("amount", Val.num 42)]
        (.str (String.mk (patternL "amount".data))) = Val.num 42 ∧
    replacePlaceholders [("amount", Val.num 42)]
        (.str (String.mk (['x'] ++ (patternL "amount".data ++ ['y'])))) =
      .str (String.mk (['x'] ++ ((pyStr (Val.num 42)).data ++ ['y']))) := by
  constructor
  · exact substitution_type_preserving.1 [("amount", Val.num 42)] "amount" (Val.num 42)
      (by rintro p hp; rw [List.mem_singleton] at hp; subst hp; decide)
      (by simp) (List.mem_singleton.mpr rfl)
  · exact substitution_type_preserving.2 [("amount", Val.num 42)] "amount" (Val.num 42)
      ['x'] ['y']
      (by rintro p hp; rw [List.mem_singleton] at hp; subst hp; decide)
      (by simp) (List.mem_singleton.mpr rfl) (by decide) (by decide) (by decide)
      (by simp)

theorem resolveLoop_unbound (repl : InputMap) (u : String) (pre suf : List Char)
    (hbf : ∀ p ∈ repl, braceFree p.1.data = true)
    (hu : braceFree u.data = true)
    (hpre : braceFree pre = true) (hsuf : braceFree suf = true)
    (habs : ∀ p ∈ repl, p.1 ≠ u) :
    resolveLoop repl (pre ++ (patternL u.data ++ suf)) =
      .str (String.mk (pre ++ (patternL u.data ++ suf))) := by
  induction repl with
  | nil => rfl
  | cons jw rest ih =>
    obtain ⟨j, w⟩ := jw
    have hbfj : braceFree j.data = true := hbf (j, w) (List.mem_cons_self _ _)
    have hju : j ≠ u := habs (j, w) (List.mem_cons_self _ _)
    have hno : hasSubL (patternL j.data) (pre ++ (patternL u.data ++ suf)) = false := by
      cases hx : hasSubL (patternL j.data) (pre ++ (patternL u.data ++ suf))
      · rfl
      · have hd := pattern_occ_eq j.data u.data pre suf hbfj hu hpre hsuf hx
        exact absurd (String.ext hd) hju
    simp only [resolveLoop, hno, Bool.false_eq_true, if_false]
    exact ih (fun p hp => hbf p (List.mem_cons.mpr (Or.inr hp)))
      (fun p hp => habs p (List.mem_cons.mpr (Or.inr hp)))

/-- C8: a token `{{u}}` whose key is bound by no entry of the replacement map
is left literally in place: the resolved string field is unchanged and still
contains the token, and resolution is total — no error is raised (the
resolver returns a value for every input). -/
theorem unresolved_token_passthrough (repl : InputMap) (u : String)
    (pre suf : List Char)
    (hbf : ∀ p ∈ repl, braceFree p.1.data = true)
    (hu : braceFree u.data = true)
    (hpre : braceFree pre = true) (hsuf : braceFree suf = true)
    (habs : ∀ p ∈ repl, p.1 ≠ u) :
    replacePlaceholders repl (.str (String.mk (pre ++ (patternL u.data ++ suf)))) =
      .str (String.mk (pre ++ (patternL u.data ++ suf))) ∧
    hasSubL (patternL u.data) (pre ++ (patternL u.data ++ suf)) = true := by
  refine ⟨?_, hasSubL_append_mid _ _ _⟩
  simpa [replacePlaceholders] using
    resolveLoop_unbound repl u pre suf hbf hu hpre hsuf habs

/-- Witness for `unresolved_token_passthrough`: `{{unknown}}` survives
resolution against a map binding only `amount`. -/
theorem unresolved_token_passthrough_witness :
    replacePlaceholders [("amount", Val.num 42)]
        (.str (String.mk ([] ++ (patternL "unknown".data ++ [])))) =
      .str (String.mk ([] ++ (patternL "unknown".data ++ []))) ∧
    hasSubL (patternL "unknown".data) ([] ++ (patternL "unknown".data ++ [])) = true :=
  unresolved_token_passthrough [("amount", Val.num 42)] "unknown" [] []
    (by rintro p hp; rw [List.mem_singleton] at hp; subst hp; decide)
    (by decide) rfl rfl
    (by rintro p hp; rw [List.mem_singleton] at hp; subst hp; decide)

/-! ### Validator claims (C5) -/

theorem pyFloat_num (v w : Val) (h : pyFloat v = some w) : ∃ n, w = Val.num n := by
  cases v with
  | num n => exact ⟨n, by simpa [pyFloat] using h.symm⟩
  | bool b => exact ⟨if b then 1 else 0, by simpa [pyFloat] using h.symm⟩
  | str s =>
    cases hs : s.toInt? with
    | none => simp [pyFloat, hs] at h
    | some n =>
      simp only [pyFloat, hs, Option.map_some'] at h
      exact ⟨n, by simpa using h.symm⟩
  | null => simp [pyFloat] at h
  | arr xs => simp [pyFloat] at h
  | obj fs => simp [pyFloat] at h


theorem coerceNumber_ok (m : InputMap) (f : FieldSpec) (v0 : Val) (m1 : InputMap)
    (v1 : Val) (h : coerceNumber m f v0 = .ok (m1, v1)) :
    (¬f.type = "number" ∧ m1 = m ∧ v1 = v0) ∨
    (f.type = "number" ∧ ∃ n, v1 = Val.num n ∧ m1 = insertMap m f.name (Val.num n)) := by
  unfold coerceNumber at h
  by_cases htype : f.type = "number"
  · rw [if_pos htype] at h
    cases hf : pyFloat v0 with
    | none => simp [hf] at h
    | some w =>
      simp only [hf, Except.ok.injEq, Prod.mk.injEq] at h
      obtain ⟨n, rfl⟩ := pyFloat_num v0 w hf
      exact Or.inr ⟨htype, n, h.2.symm, h.1.symm⟩
  · rw [if_neg htype] at h
    simp only [Except.ok.injEq, Prod.mk.injEq] at h
    exact Or.inl ⟨htype, h.1.symm, h.2.symm⟩

theorem optionsCheck_ok (f : FieldSpec) (v1 : Val) (m1 m2 : InputMap)
    (h : optionsCheck f v1 m1 = .ok m2) : m2 = m1 := by
  unfold optionsCheck at h
  split at h
  · split at h
    · simp only [Except.ok.injEq] at h; exact h.symm
    · simp at h
  · simp only [Except.ok.injEq] at h; exact h.symm

theorem checkRequiredField_ok (m m1 : InputMap) (g : FieldSpec)
    (h : checkRequiredField m g = .ok m1) :
    ∃ v0, lookupMap m g.name = some v0 ∧ v0.isNull = false ∧
      ((¬g.type = "number" ∧ m1 = m) ∨
       (g.type = "number" ∧ ∃ n, m1 = insertMap m g.name (Val.num n))) := by
  unfold checkRequiredField at h
  cases h0 : lookupMap m g.name with
  | none => simp [h0] at h
  | some v0 =>
    cases hnull : v0.isNull with
    | true => simp [h0, hnull] at h
    | false =>
      cases hc : coerceNumber m g v0 with
      | error e => simp [h0, hnull, hc] at h
      | ok p =>
        obtain ⟨m1x, v1x⟩ := p
        cases hr : rangeCheckNumber g v1x with
        | error e => simp [h0, hnull, hc, hr] at h
        | ok u =>
          simp only [h0, hnull, Bool.false_eq_true, if_false, hc, hr] at h
          have hm := optionsCheck_ok g v1x m1x m1 h
          rcases coerceNumber_ok m g v0 m1x v1x hc with ⟨ht, hmm, -⟩ | ⟨ht, n, -, hmm⟩
          · exact ⟨v0, rfl, hnull, Or.inl ⟨ht, hm.trans hmm⟩⟩
          · exact ⟨v0, rfl, hnull, Or.inr ⟨ht, n, hm.trans hmm⟩⟩

theorem checkRequiredField_ok_none (m m1 : InputMap) (g : FieldSpec) (k : String)
    (h : checkRequiredField m g = .ok m1) (hk : lookupMap m k = none) :
    lookupMap m1 k = none := by
  obtain ⟨v0, h0, -, hcase⟩ := checkRequiredField_ok m m1 g h
  rcases hcase with ⟨-, rfl⟩ | ⟨-, n, rfl⟩
  · exact hk
  · by_cases hkg : k = g.name
    · subst hkg; rw [h0] at hk; exact absurd hk (by simp)
    · rw [lookup_insertMap_ne _ _ _ _ hkg]; exact hk

theorem checkRequiredField_ok_evolve (m m1 : InputMap) (g : FieldSpec) (k : String)
    (v : Val) (h : checkRequiredField m g = .ok m1) (hv : lookupMap m k = some v) :
    lookupMap m1 k = some v ∨ ∃ n, lookupMap m1 k = some (Val.num n) := by
  obtain ⟨v0, h0, -, hcase⟩ := checkRequiredField_ok m m1 g h
  rcases hcase with ⟨-, rfl⟩ | ⟨-, n, rfl⟩
  · exact Or.inl hv
  · by_cases hkg : k = g.name
    · subst hkg
      exact Or.inr ⟨n, lookup_insertMap_self _ _ _⟩
    · rw [lookup_insertMap_ne _ _ _ _ hkg]; exact Or.inl hv

theorem checkRequiredField_ok_null (m m1 : InputMap) (g : FieldSpec) (k : String)
    (h : checkRequiredField m g = .ok m1) (hv : lookupMap m k = some Val.null) :
    lookupMap m1 k = some Val.null := by
  obtain ⟨v0, h0, hnn, hcase⟩ := checkRequiredField_ok m m1 g h
  rcases hcase with ⟨-, rfl⟩ | ⟨-, n, rfl⟩
  · exact hv
  · by_cases hkg : k = g.name
    · subst hkg
      rw [h0] at hv
      obtain rfl : v0 = Val.null := by simpa using hv
      simp [Val.isNull] at hnn
    · rw [lookup_insertMap_ne _ _ _ _ hkg]; exact hv

theorem checkRequiredField_ok_post (m m1 : InputMap) (g : FieldSpec)
    (h : checkRequiredField m g = .ok m1) :
    ∃ v, lookupMap m1 g.name = some v ∧ v.isNull = false ∧
      (g.type = "number" → ∃ n, v = Val.num n) := by
  obtain ⟨v0, h0, hnn, hcase⟩ := checkRequiredField_ok m m1 g h
  rcases hcase with ⟨ht, rfl⟩ | ⟨ht, n, rfl⟩
  · exact ⟨v0, h0, hnn, fun hh => absurd hh ht⟩
  · exact ⟨Val.num n, lookup_insertMap_self _ _ _, rfl, fun _ => ⟨n, rfl⟩⟩

theorem validateRequiredLoop_none (fs : List FieldSpec) (m m2 : InputMap) (k : String)
    (h : validateRequiredLoop fs m = .ok m2) (hk : lookupMap m k = none) :
    lookupMap m2 k = none := by
  induction fs generalizing m with
  | nil =>
    simp only [validateRequiredLoop, Except.ok.injEq] at h
    exact h ▸ hk
  | cons g rest ih =>
    simp only [validateRequiredLoop] at h
    cases hc : checkRequiredField m g with
    | error e => simp [hc] at h
    | ok mg =>
      simp only [hc] at h
      exact ih mg h (checkRequiredField_ok_none m mg g k hc hk)

theorem validateRequiredLoop_evolve (fs : List FieldSpec) (m m2 : InputMap)
    (k : String) (v : Val) (h : validateRequiredLoop fs m = .ok m2)
    (hv : lookupMap m k = some v) :
    lookupMap m2 k = some v ∨ ∃ n, lookupMap m2 k = some (Val.num n) := by
  induction fs generalizing m v with
  | nil =>
    simp only [validateRequiredLoop, Except.ok.injEq] at h
    exact Or.inl (h ▸ hv)
  | cons g rest ih =>
    simp only [validateRequiredLoop] at h
    cases hc : checkRequiredField m g with
    | error e => simp [hc] at h
    | ok mg =>
      simp only [hc] at h
      rcases checkRequiredField_ok_evolve m mg g k v hc hv with h1 | ⟨n, h1⟩
      · exact ih mg v h h1
      · rcases ih mg (Val.num n) h h1 with h2 | h2
        · exact Or.inr ⟨n, h2⟩
        · exact Or.inr h2

theorem validateRequiredLoop_null (fs : List FieldSpec) (m m2 : InputMap)
    (k : String) (h : validateRequiredLoop fs m = .ok m2)
    (hv : lookupMap m k = some Val.null) :
    lookupMap m2 k = some Val.null := by
  induction fs generalizing m with
  | nil =>
    simp only [validateRequiredLoop, Except.ok.injEq] at h
    exact h ▸ hv
  | cons g rest ih =>
    simp only [validateRequiredLoop] at h
    cases hc : checkRequiredField m g with
    | error e => simp [hc] at h
    | ok mg =>
      simp only [hc] at h
      exact ih mg h (checkRequiredField_ok_null m mg g k hc hv)

theorem validateRequiredLoop_mem (fs : List FieldSpec) (m m2 : InputMap)
    (f : FieldSpec) (h : validateRequiredLoop fs m = .ok m2) (hf : f ∈ fs) :
    ∃ v, lookupMap m2 f.name = some v ∧ v.isNull = false ∧
      (f.type = "number" → ∃ n, v = Val.num n) := by
  induction fs generalizing m with
  | nil => simp at hf
  | cons g rest ih =>
    simp only [validateRequiredLoop] at h
    cases hc : checkRequiredField m g with
    | error e => simp [hc] at h
    | ok mg =>
      simp only [hc] at h
      rcases List.mem_cons.mp hf with rfl | hf2
      · obtain ⟨v, hv, hnn, hnum⟩ := checkRequiredField_ok_post m mg f hc
        rcases validateRequiredLoop_evolve rest mg m2 f.name v h hv with h1 | ⟨n, h1⟩
        · exact ⟨v, h1, hnn, hnum⟩
        · exact ⟨Val.num n, h1, rfl, fun _ => ⟨n, rfl⟩⟩
      · exact ih mg h hf2

theorem defaultStep_lookup_ne (g : FieldSpec) (m : InputMap) (k : String)
    (hg : g.name ≠ k) : lookupMap (defaultStep g m) k = lookupMap m k := by
  unfold defaultStep
  cases hl : lookupMap m g.name with
  | none => exact lookup_insertMap_ne _ _ _ _ (Ne.symm hg)
  | some w =>
    cases hw : w.isNull with
    | true => simp only [hw, if_true]; exact lookup_insertMap_ne _ _ _ _ (Ne.symm hg)
    | false => simp only [hw, Bool.false_eq_true, if_false]

theorem defaultStep_keep (g : FieldSpec) (m : InputMap) (v : Val)
    (hv : lookupMap m g.name = some v) (hnn : v.isNull = false) :
    defaultStep g m = m := by
  unfold defaultStep
  simp only [hv, hnn, Bool.false_eq_true, if_false]

theorem defaultStep_fill (g : FieldSpec) (m : InputMap)
    (h : lookupMap m g.name = none ∨ lookupMap m g.name = some Val.null) :
    defaultStep g m = insertMap m g.name (g.default.getD Val.null) := by
  unfold defaultStep
  rcases h with h | h
  · simp only [h]
  · simp only [h, Val.isNull, if_true]

theorem defaultStep_present (g : FieldSpec) (m : InputMap) :
    ∃ v, lookupMap (defaultStep g m) g.name = some v := by
  unfold defaultStep
  cases hl : lookupMap m g.name with
  | none => exact ⟨_, lookup_insertMap_self _ _ _⟩
  | some w =>
    cases hw : w.isNull with
    | true => simp only [hw, if_true]; exact ⟨_, lookup_insertMap_self _ _ _⟩
    | false => simp only [hw, Bool.false_eq_true, if_false]; exact ⟨w, hl⟩

theorem applyDefaults_preserve (fs : List FieldSpec) (m : InputMap) (k : String)
    (v : Val) (hv : lookupMap m k = some v) (hnn : v.isNull = false) :
    lookupMap (applyDefaults fs m) k = some v := by
  induction fs generalizing m with
  | nil => exact hv
  | cons g rest ih =>
    simp only [applyDefaults]
    by_cases hg : g.name = k
    · subst hg
      rw [defaultStep_keep g m v hv hnn]
      exact ih m hv
    · exact ih (defaultStep g m) ((defaultStep_lookup_ne g m k hg).trans hv)

theorem applyDefaults_present_mono (fs : List FieldSpec) (m : InputMap) (k : String)
    (hw : (lookupMap m k).isSome = true) :
    (lookupMap (applyDefaults fs m) k).isSome = true := by
  induction fs generalizing m with
  | nil => exact hw
  | cons g rest ih =>
    simp only [applyDefaults]
    apply ih
    by_cases hg : g.name = k
    · subst hg
      obtain ⟨v, hv⟩ := defaultStep_present g m
      simp [hv]
    · rw [defaultStep_lookup_ne g m k hg]; exact hw

theorem applyDefaults_mem_present (fs : List FieldSpec) (m : InputMap) (f : FieldSpec)
    (hf : f ∈ fs) : (lookupMap (applyDefaults fs m) f.name).isSome = true := by
  induction fs generalizing m with
  | nil => simp at hf
  | cons g rest ih =>
    simp only [applyDefaults]
    rcases List.mem_cons.mp hf with rfl | hf2
    · apply applyDefaults_present_mono
      obtain ⟨v, hv⟩ := defaultStep_present f m
      simp [hv]
    · exact ih (defaultStep g m) hf2

theorem applyDefaults_not_mem (fs : List FieldSpec) (m : InputMap) (k : String)
    (hk : k ∉ fs.map FieldSpec.name) :
    lookupMap (applyDefaults fs m) k = lookupMap m k := by
  induction fs generalizing m with
  | nil => rfl
  | cons g rest ih =>
    simp only [List.map_cons, List.mem_cons, not_or] at hk
    simp only [applyDefaults]
    rw [ih (defaultStep g m) hk.2, defaultStep_lookup_ne g m k (fun hh => hk.1 hh.symm)]

theorem applyDefaults_fill (fs : List FieldSpec) (m : InputMap) (f : FieldSpec)
    (hf : f ∈ fs) (hnd : (fs.map FieldSpec.name).Nodup)
    (habs : lookupMap m f.name = none ∨ lookupMap m f.name = some Val.null) :
    lookupMap (applyDefaults fs m) f.name = some (f.default.getD Val.null) := by
  induction fs generalizing m with
  | nil => simp at hf
  | cons g rest ih =>
    simp only [List.map_cons, List.nodup_cons] at hnd
    simp only [applyDefaults]
    rcases List.mem_cons.mp hf with rfl | hf2
    · rw [defaultStep_fill f m habs, applyDefaults_not_mem rest _ f.name hnd.1]
      exact lookup_insertMap_self _ _ _
    · have hgf : g.name ≠ f.name := by
        intro hh
        exact hnd.1 (hh ▸ List.mem_map.mpr ⟨f, hf2, rfl⟩)
      apply ih (defaultStep g m) hf2 hnd.2
      rw [defaultStep_lookup_ne g m f.name hgf]
      exact habs

/-- A numeric value — the type-correctness the spec asserts for a field
declared with type `number`. -/
def valIsNumber : Val → Bool
  | .num _ => true
  | _ => false

/-- Template used for the C5 counterexample: a single optional field declared
`number` and no required fields. -/
def tmplC5 : WorkflowTemplate :=
  { id := "t5", name := "T5", required_inputs := [],
    optional_inputs := [{ name := "b", type := "number" }],
    n8n_json := [] }

/-- C5 counterexample: validation succeeds on a supplied optional field whose
value is the string `xyz` although the field is declared `number` — supplied
optional values are passed through with no type check, so success does not
guarantee a type-correct value for every declared field. -/
theorem validate_type_correct_counterexample :
    validateInputs tmplC5 [("b", Val.str "xyz")] = .ok [("b", Val.str "xyz")] ∧
    valIsNumber (Val.str "xyz") = false := ⟨rfl, rfl⟩

/-- C5 (amended): when validation succeeds, every required field is present
with a non-null value that is numeric whenever the field is declared
`number`; every optional field is present; and every optional field that was
absent (or null) in the supplied inputs holds its declared default — null
when no default is declared.  Supplied values of optional fields and
non-number required fields are passed through without type checking.
Optional field names are assumed duplicate-free (§3 template invariant). -/
theorem validate_success_shape (template : WorkflowTemplate) (inputs m : InputMap)
    (hok : validateInputs template inputs = .ok m)
    (hnd : (template.optional_inputs.map FieldSpec.name).Nodup) :
    (∀ f ∈ template.required_inputs, ∃ v, lookupMap m f.name = some v ∧
        v.isNull = false ∧ (f.type = "number" → ∃ n, v = Val.num n)) ∧
    (∀ f ∈ template.optional_inputs,
      (∃ v, lookupMap m f.name = some v) ∧
      ((lookupMap inputs f.name = none ∨ lookupMap inputs f.name = some Val.null) →
        lookupMap m f.name = some (f.default.getD Val.null))) := by
  unfold validateInputs at hok
  cases hreq : validateRequiredLoop template.required_inputs inputs with
  | error e => simp [hreq] at hok
  | ok mr =>
    simp only [hreq, Except.ok.injEq] at hok
    subst hok
    constructor
    · intro f hf
      obtain ⟨v, hv, hnn, hnum⟩ :=
        validateRequiredLoop_mem template.required_inputs inputs mr f hreq hf
      exact ⟨v, applyDefaults_preserve template.optional_inputs mr f.name v hv hnn,
        hnn, hnum⟩
    · intro f hf
      constructor
      · have hs := applyDefaults_mem_present template.optional_inputs mr f hf
        cases hx : lookupMap (applyDefaults template.optional_inputs mr) f.name with
        | none => rw [hx] at hs; simp at hs
        | some v => exact ⟨v, rfl⟩
      · intro habs
        apply applyDefaults_fill template.optional_inputs mr f hf hnd
        rcases habs with h1 | h1
        · exact Or.inl
            (validateRequiredLoop_none template.required_inputs inputs mr f.name hreq h1)
        · exact Or.inr
            (validateRequiredLoop_null template.required_inputs inputs mr f.name hreq h1)

/-- Template used by the C5 witness: one required number field, one optional
string field with a declared default. -/
def tmplC5w : WorkflowTemplate :=
  { id := "t5w", name := "T5w",
    required_inputs := [{ name := "a", type := "number" }],
    optional_inputs := [{ name := "c", type := "string", default := some (Val.str "dflt") }],
    n8n_json := [] }

/-- Witness for `validate_success_shape`: the required number field `a`
passes coercion, and the absent optional field `c` holds its declared
default. -/
theorem validate_success_shape_witness :
    (∃ v, lookupMap [("a", Val.num 7), ("c", Val.str "dflt")] "a" = some v ∧
      v.isNull = false ∧ ("number" = "number" → ∃ n, v = Val.num n)) ∧
    lookupMap [("a", Val.num 7), ("c", Val.str "dflt")] "c" =
      some ((some (Val.str "dflt")).getD Val.null) := by
  have h := validate_success_shape tmplC5w [("a", Val.num 7)]
    [("a", Val.num 7), ("c", Val.str "dflt")] rfl (by decide)
  exact ⟨h.1 ⟨"a", "number", none, none, none, none⟩ (by simp [tmplC5w]),
    (h.2 ⟨"c", "string", some (Val.str "dflt"), none, none, none⟩
      (by simp [tmplC5w])).2 (Or.inl rfl)⟩
